import Mathlib

/-!
# Verification of the rrvideo session-to-video pipeline

A shallow embedding of `src/index.ts` (the `transformToVideo` pipeline and its
helper `getMaxViewport`) and of `src/snapshot_pipeline/highlight_elements.ts`
(the element-highlight screenshot tool), with theorems settling the spec's
claims about them.

Modelling conventions:
* JavaScript numbers that hold pixel sizes are modelled as `ℤ`; the resolution
  ratio (a fraction between 0 and 1) as `ℚ`.  `Math.round` on the nonnegative
  values at stake is `⌊x + 1/2⌋` (ties go up), modelled by `jsRound`.
* The effectful pipeline is embedded as a function from a configuration and an
  environment (the behaviour of the external collaborators: the file system,
  the browser, the replay runtime) to the list of external actions the run
  performs, in program order, together with its outcome.  The `await`s of the
  source are sequential, so a run's actions form one list.
* A promise that is `resolve`d is modelled by `CompletionSignal` following the
  ECMAScript semantics of `resolve`: only the first call settles the promise
  and resumes the awaiting continuation; later calls are ignored.
-/

namespace RRVideo

/-! ## Data model: rrweb events (`@rrweb/types`)

`eventWithTime` carries a `type` tag and a `data` payload; the pipeline only
ever reads `data.width`/`data.height`, and only on `Meta` events, so the
payload is modelled by those two fields. -/

/-- The `EventType` enum of `@rrweb/types` (numbered 0..6 in the source). -/
inductive EventType
  | DomContentLoaded
  | Load
  | FullSnapshot
  | IncrementalSnapshot
  | Meta
  | Custom
  | Plugin
  deriving DecidableEq, Repr

/-- The part of an event's `data` payload the pipeline reads: the recorded
viewport dimensions carried by `Meta` events. -/
structure EventData where
  width : ℤ
  height : ℤ
  deriving DecidableEq, Repr

/-- `eventWithTime`: a timestamped, typed record of the recording. -/
structure EventWithTime where
  type : EventType
  data : EventData
  timestamp : ℤ
  deriving DecidableEq, Repr

/-- A width/height pair in pixels. -/
structure Viewport where
  width : ℤ
  height : ℤ
  deriving DecidableEq, Repr

/-! ## Viewport calculator: `getMaxViewport` (src/index.ts lines 205-217) -/

/-- One step of the `events.forEach` body of `getMaxViewport`: skip non-`Meta`
events, otherwise bump each running maximum when the event's declared
dimension exceeds it. -/
def metaStep (acc : ℤ × ℤ) (e : EventWithTime) : ℤ × ℤ :=
  if e.type ≠ EventType.Meta then acc
  else
    (if e.data.width > acc.1 then e.data.width else acc.1,
     if e.data.height > acc.2 then e.data.height else acc.2)

/-- `getMaxViewport`: running maxima over the events, initialised at the fixed
floor `500 × 500`. -/
def getMaxViewport (events : List EventWithTime) : Viewport :=
  let m := events.foldl metaStep (500, 500)
  { width := m.1, height := m.2 }

/-! ## Numeric helpers -/

/-- `Math.round` for the nonnegative values at stake: round half up. -/
def jsRound (q : ℚ) : ℤ := ⌊q + 1 / 2⌋

/-- `const MaxScaleValue = 1` (src/index.ts line 8). -/
def MaxScaleValue : ℚ := 1

/-! ## Config resolver (src/index.ts lines 10-34 and 221-233) -/

/-- The `rrwebPlayer` pass-through options bag (only the fields the pipeline
itself writes, via `Object.assign(config.rrwebPlayer, scaledViewport)`). -/
structure PlayerOptions where
  width : Option ℤ := none
  height : Option ℤ := none
  deriving DecidableEq, Repr

/-- The caller-supplied `RRvideoConfig`: optional fields are `none` when the
caller leaves them out (JavaScript `undefined`). -/
structure RRvideoConfig where
  input : String
  output : Option String := none
  headless : Option Bool := none
  resolutionRatio : Option ℚ := none
  rrwebPlayer : PlayerOptions := {}
  deriving DecidableEq, Repr

/-- The config after merging over `defaultConfig`. -/
structure ResolvedConfig where
  input : String
  output : String
  headless : Bool
  resolutionRatio : ℚ
  rrwebPlayer : PlayerOptions
  deriving DecidableEq, Repr

/-- Lines 221-226: spread the defaults, drop a falsy `output` so the default
survives, `Object.assign` the caller's fields over the defaults, then clamp a
resolution ratio above 1 down to 1 (`if (config.resolutionRatio > 1)
config.resolutionRatio = 1`).  The defaults are `output =
"rrvideo-output.webm"`, `headless = false`, `resolutionRatio = 0.8`. -/
def resolveConfig (options : RRvideoConfig) : ResolvedConfig :=
  let output :=
    match options.output with
    | none => "rrvideo-output.webm"
    | some s => if s = "" then "rrvideo-output.webm" else s
  let ratio := (options.resolutionRatio).getD (8 / 10)
  { input := options.input
    output := output
    headless := (options.headless).getD false
    resolutionRatio := if ratio > 1 then 1 else ratio
    rrwebPlayer := options.rrwebPlayer }

/-- `path.isAbsolute` on POSIX paths: the path starts with `/`. -/
def isAbsolute (p : String) : Bool :=
  match p.data with
  | '/' :: _ => true
  | _ => false

/-- `path.resolve(process.cwd(), p)` guarded by `path.isAbsolute(p)`. -/
def resolvePath (cwd p : String) : String :=
  if isAbsolute p then p else cwd ++ "/" ++ p

/-! ## The completion bridge

Lines 272-278: `transformToVideo` awaits a promise whose executor exposes
`onReplayFinish` into the page with handler `() => resolve()` and then sets
the page content.  Per the ECMAScript semantics of a promise's `resolve`, only
the first call settles the promise and schedules the awaiting continuation;
every later call finds the promise already resolved and does nothing. -/

/-- The state of the run's pending completion signal: whether the promise is
settled, and how many times the awaiting continuation has been resumed. -/
structure CompletionSignal where
  resolved : Bool
  resumes : ℕ
  deriving DecidableEq, Repr

/-- The pending promise before the replay runtime has called anything. -/
def initialSignal : CompletionSignal := ⟨false, 0⟩

/-- One invocation of the exposed `onReplayFinish` bridge function, i.e. one
call of the promise's `resolve`: a no-op once the promise is settled. -/
def onReplayFinish (s : CompletionSignal) : CompletionSignal :=
  if s.resolved then s else { resolved := true, resumes := s.resumes + 1 }

/-- The signal after the replay runtime has invoked `onReplayFinish` `n`
times. -/
def signalAfter (n : ℕ) : CompletionSignal := onReplayFinish^[n] initialSignal

/-! ## The pipeline: `transformToVideo` (src/index.ts lines 219-307) -/

/-- The externally visible operations a run performs, in program order. -/
inductive Action
  | launchBrowser (headless : Bool)
  | newContext (viewport : ℤ × ℤ) (recordDir : String) (recordSize : ℤ × ℤ)
  | newPage
  | gotoBlank
  | exposeProgressFn
  | exposeFinishFn
  | setContent
  | queryVideoPath
  | closeContext
  | moveVideo (src dst : String)
  | logMoveError
  | removeFile (p : String)
  | removeDir (p : String)
  | closeBrowser
  | sleep (ms : ℕ)
  deriving DecidableEq, Repr

/-- How a run ends: return, throw, or suspend forever on an await that is
never resumed. -/
inductive Outcome
  | returns (path : String)
  | threw (msg : String)
  | suspended
  deriving DecidableEq, Repr

/-- The behaviour of the run's external collaborators. -/
structure Env where
  /-- The result of `JSON.parse(fs.readFileSync(eventsPath, 'utf-8'))`:
  `none` models the read or parse throwing. -/
  parsed : Option (List EventWithTime)
  /-- How many times the replay runtime invokes the exposed `onReplayFinish`
  bridge function during the run (`0` = never). -/
  finishCalls : ℕ
  /-- The capture path `(await page.video()?.path()) || ''` reports. -/
  videoPath : String
  /-- Whether `fs.move(videoPath, outputPath, { overwrite: true })`
  succeeds. -/
  moveSucceeds : Bool
  /-- Whether `fs.readdir(defaultVideoDir)` is empty once `cleanFiles` has
  removed the capture file. -/
  tempDirEmptyAfterRemove : Bool
  deriving DecidableEq, Repr

/-- `const defaultVideoDir = '__rrvideo__temp__'` (line 220). -/
def defaultVideoDir : String := "__rrvideo__temp__"

/-- The scaled capture viewport (lines 245-252): each dimension of the
baseline viewport times the resolved resolution ratio times `MaxScaleValue`,
rounded. -/
def captureViewport (maxViewport : ℤ × ℤ) (ratio : ℚ) : ℤ × ℤ :=
  (jsRound ((maxViewport.1 : ℚ) * ratio * MaxScaleValue),
   jsRound ((maxViewport.2 : ℚ) * ratio * MaxScaleValue))

/-- `cleanFiles` (lines 280-285): remove the capture file, then remove the
temp directory if and only if it is now empty. -/
def cleanFiles (env : Env) : List Action :=
  Action.removeFile env.videoPath ::
    (if env.tempDirEmptyAfterRemove then [Action.removeDir defaultVideoDir] else [])

/-- `transformToVideo` (lines 219-307), as the list of actions a run performs
together with its outcome.

* Lines 222-226: throw when `options.input` is falsy, then resolve the config
  (`resolveConfig`).
* Lines 234-236: `JSON.parse(fs.readFileSync(...))`, before anything is
  allocated; a parse failure throws a `SyntaxError` here.
* Lines 238-243: `// const maxViewport = getMaxViewport(events);` is commented
  out in the source; the baseline viewport is the literal `{ width: 2048,
  height: 1152 }`.
* Lines 254-277: launch the browser, open a recording context sized to the
  scaled viewport, open a page, go to `about:blank`, expose
  `onReplayProgressUpdate`, then (inside the awaited promise's executor)
  expose `onReplayFinish` and set the page content.  The await resumes only
  if the replay runtime calls `onReplayFinish` at least once; otherwise the
  run suspends forever.
* Lines 279-299: read the capture path, close the context, then
  `fs.move(...).catch(log).finally(cleanFiles)`; `browser.close()` is
  commented out in the source, so no `closeBrowser` action ever occurs.
* Lines 301-306: sleep 300000 ms, then return the output path. -/
def transformToVideo (cwd : String) (options : RRvideoConfig) (env : Env) :
    List Action × Outcome :=
  if options.input = "" then ([], Outcome.threw "input is required")
  else
    let config := resolveConfig options
    let outputPath := resolvePath cwd config.output
    match env.parsed with
    | none => ([], Outcome.threw "SyntaxError: invalid events JSON")
    | some _events =>
      let maxViewport : ℤ × ℤ := (2048, 1152)
      let scaledViewport := captureViewport maxViewport config.resolutionRatio
      let pre : List Action :=
        [Action.launchBrowser config.headless,
         Action.newContext scaledViewport defaultVideoDir scaledViewport,
         Action.newPage,
         Action.gotoBlank,
         Action.exposeProgressFn,
         Action.exposeFinishFn,
         Action.setContent]
      if (signalAfter env.finishCalls).resolved = false then
        (pre, Outcome.suspended)
      else
        let moveActions :=
          if env.moveSucceeds then [Action.moveVideo env.videoPath outputPath]
          else [Action.moveVideo env.videoPath outputPath, Action.logMoveError]
        let post :=
          Action.queryVideoPath :: Action.closeContext ::
            (moveActions ++ cleanFiles env ++ [Action.sleep 300000])
        (pre ++ post, Outcome.returns outputPath)

/-! ## The element-highlight tool
(`src/snapshot_pipeline/highlight_elements.ts`)

The DOM below a container element is modelled as a tree of nodes; a node's
`id` stands for the element's object identity (its `ElementHandle`), and its
`style` for its `style` attribute. -/

/-- A DOM element: identity, `style` attribute, child elements in document
order. -/
inductive DomNode
  | node (id : ℕ) (style : String) (children : List DomNode)

/-- The element's identity. -/
def DomNode.nodeId : DomNode → ℕ
  | .node i _ _ => i

/-- The element's child list (`element.$$('> *')`). -/
def DomNode.children : DomNode → List DomNode
  | .node _ _ cs => cs

mutual

/-- `getFlattenedDescendants` (lines 41-52): get the immediate children; for
each child, push the child and then, recursively, the child's descendants. -/
def getFlattenedDescendants : DomNode → List DomNode
  | .node _ _ cs => flattenChildren cs

/-- The `for (const child of children)` loop body of
`getFlattenedDescendants`, over the remaining children. -/
def flattenChildren : List DomNode → List DomNode
  | [] => []
  | c :: rest => (c :: getFlattenedDescendants c) ++ flattenChildren rest

end

/-- The page-level operations of the highlight loop, in program order. -/
inductive HAction
  | saveAndHighlight (id : ℕ)
  | wait (ms : ℕ)
  | screenshot (name : String)
  | restoreStyle (id : ℕ)
  deriving DecidableEq, Repr

/-- Lines 114-141, one loop iteration over descendant `i` (0-based): save the
original style and add the red border, wait 200 ms, take a full-page
screenshot named `element_{i+1}.{format}`, restore the original style. -/
def processElement (i : ℕ) (d : DomNode) (format : String) : List HAction :=
  [HAction.saveAndHighlight d.nodeId,
   HAction.wait 200,
   HAction.screenshot ("element_" ++ toString (i + 1) ++ "." ++ format),
   HAction.restoreStyle d.nodeId]

/-- The `for (let i = 0; i < descendantHandles.length; i++)` loop, from loop
counter `i` over the remaining descendants. -/
def highlightLoop (i : ℕ) (ds : List DomNode) (format : String) : List HAction :=
  match ds with
  | [] => []
  | d :: rest => processElement i d format ++ highlightLoop (i + 1) rest format

/-- The page-level trace of `highlightElements` once the container has been
found (lines 107-141): the full-page `original.{format}` screenshot, then the
highlight loop over the flattened descendants. -/
def highlightElements (container : DomNode) (format : String) : List HAction :=
  HAction.screenshot ("original." ++ format) ::
    highlightLoop 0 (getFlattenedDescendants container) format

/-- The set of elements currently carrying the injected highlight border,
tracked across one action: `saveAndHighlight` adds the element,
`restoreStyle` removes it, nothing else changes it. -/
def applyAction (hl : List ℕ) : HAction → List ℕ
  | HAction.saveAndHighlight i => i :: hl
  | HAction.restoreStyle i => hl.erase i
  | _ => hl

/-- The highlighted elements after running a trace from no highlights. -/
def highlightedAfter (tr : List HAction) : List ℕ :=
  tr.foldl applyAction []

/-- The identities highlighted by a trace, in order of highlighting. -/
def highlightedSeq (tr : List HAction) : List ℕ :=
  tr.filterMap fun a =>
    match a with
    | HAction.saveAndHighlight i => some i
    | _ => none

mutual

/-- The spec's words, for comparison with `getFlattenedDescendants`: the
depth-first preorder traversal rooted at an element (the element, then the
preorder of each child subtree in order). -/
def preorderTraversal : DomNode → List DomNode
  | .node i s cs => DomNode.node i s cs :: preorderForest cs

/-- Preorder of a forest: the traversals of its trees, concatenated. -/
def preorderForest : List DomNode → List DomNode
  | [] => []
  | c :: rest => preorderTraversal c ++ preorderForest rest

end

/-- The spec's words: the container's descendants in depth-first preorder
(every proper descendant, container excluded). -/
def preorderDescendantsSpec (container : DomNode) : List DomNode :=
  preorderForest container.children

/-! ## Lemmas on the completion signal -/

lemma onReplayFinish_of_resolved {s : CompletionSignal} (h : s.resolved = true) :
    onReplayFinish s = s := by
  unfold onReplayFinish
  rw [h]
  simp

lemma iterate_onReplayFinish_fixed (m : ℕ) :
    onReplayFinish^[m] ⟨true, 1⟩ = ⟨true, 1⟩ := by
  induction m with
  | zero => rfl
  | succ k ih => rw [Function.iterate_succ_apply, onReplayFinish_of_resolved rfl, ih]

/-- After at least one `onReplayFinish` call the promise is settled and the
awaiting continuation has been resumed exactly once. -/
lemma signalAfter_pos {n : ℕ} (h : 1 ≤ n) : signalAfter n = ⟨true, 1⟩ := by
  obtain ⟨m, rfl⟩ := Nat.exists_eq_add_of_le h
  rw [Nat.add_comm]
  unfold signalAfter
  rw [Function.iterate_succ_apply]
  exact iterate_onReplayFinish_fixed m

lemma signalAfter_zero : signalAfter 0 = ⟨false, 0⟩ := rfl

/-! ## Canonical run shapes of `transformToVideo` -/

/-- A run whose input parses and whose replay runtime reports finish at least
once: the full action list and the returned output path. -/
lemma transformToVideo_success (cwd : String) (options : RRvideoConfig) (env : Env)
    (evs : List EventWithTime) (h1 : options.input ≠ "") (h2 : env.parsed = some evs)
    (h3 : 1 ≤ env.finishCalls) :
    transformToVideo cwd options env =
      ([Action.launchBrowser (resolveConfig options).headless,
        Action.newContext (captureViewport (2048, 1152) (resolveConfig options).resolutionRatio)
          defaultVideoDir (captureViewport (2048, 1152) (resolveConfig options).resolutionRatio),
        Action.newPage,
        Action.gotoBlank,
        Action.exposeProgressFn,
        Action.exposeFinishFn,
        Action.setContent,
        Action.queryVideoPath,
        Action.closeContext] ++
        (if env.moveSucceeds then [Action.moveVideo env.videoPath (resolvePath cwd (resolveConfig options).output)]
         else [Action.moveVideo env.videoPath (resolvePath cwd (resolveConfig options).output),
               Action.logMoveError]) ++
        cleanFiles env ++ [Action.sleep 300000],
       Outcome.returns (resolvePath cwd (resolveConfig options).output)) := by
  unfold transformToVideo
  rw [if_neg h1, h2]
  simp only [signalAfter_pos h3]
  simp

/-- A run whose input parses but whose replay runtime never reports finish:
the pipeline suspends after setting the content, performing no teardown. -/
lemma transformToVideo_suspends (cwd : String) (options : RRvideoConfig) (env : Env)
    (evs : List EventWithTime) (h1 : options.input ≠ "") (h2 : env.parsed = some evs)
    (h3 : env.finishCalls = 0) :
    transformToVideo cwd options env =
      ([Action.launchBrowser (resolveConfig options).headless,
        Action.newContext (captureViewport (2048, 1152) (resolveConfig options).resolutionRatio)
          defaultVideoDir (captureViewport (2048, 1152) (resolveConfig options).resolutionRatio),
        Action.newPage,
        Action.gotoBlank,
        Action.exposeProgressFn,
        Action.exposeFinishFn,
        Action.setContent],
       Outcome.suspended) := by
  unfold transformToVideo
  rw [if_neg h1, h2, h3]
  simp only [signalAfter_zero]
  simp

/-- A run whose input file does not parse: the exception propagates before
any action is performed. -/
lemma transformToVideo_parse_failure (cwd : String) (options : RRvideoConfig) (env : Env)
    (h1 : options.input ≠ "") (h2 : env.parsed = none) :
    transformToVideo cwd options env = ([], Outcome.threw "SyntaxError: invalid events JSON") := by
  unfold transformToVideo
  rw [if_neg h1, h2]

/-- A run with no input path: throws at once, before any action. -/
lemma transformToVideo_no_input (cwd : String) (options : RRvideoConfig) (env : Env)
    (h1 : options.input = "") :
    transformToVideo cwd options env = ([], Outcome.threw "input is required") := by
  unfold transformToVideo
  rw [if_pos h1]

/-! ## Concrete fixtures: the spec's end-to-end scenario -/

/-- An event stream with two `Meta` events declaring viewports `800×600` and
`1024×768`. -/
def sampleEvents : List EventWithTime :=
  [⟨EventType.Meta, ⟨800, 600⟩, 0⟩, ⟨EventType.Meta, ⟨1024, 768⟩, 1⟩]

/-- A caller config with resolution ratio `0.5` and everything else left to
the defaults. -/
def sampleOptions : RRvideoConfig :=
  { input := "/events.json", resolutionRatio := some (1 / 2) }

/-- A fully successful environment: the input parses to `sampleEvents`, the
replay runtime reports finish once, the move succeeds, the temp directory is
empty after the capture file is removed. -/
def sampleEnv : Env :=
  { parsed := some sampleEvents, finishCalls := 1,
    videoPath := "__rrvideo__temp__/v.webm",
    moveSucceeds := true, tempDirEmptyAfterRemove := true }

lemma sampleConfig_eq : resolveConfig sampleOptions =
    { input := "/events.json", output := "rrvideo-output.webm", headless := false,
      resolutionRatio := 1 / 2, rrwebPlayer := {} } := by
  unfold resolveConfig sampleOptions
  norm_num

lemma captureViewport_half : captureViewport (2048, 1152) ((1 : ℚ) / 2) = (1024, 576) := by
  unfold captureViewport jsRound MaxScaleValue
  norm_num

/-- The full action list of the successful sample run. -/
lemma sampleRun : transformToVideo "/cwd" sampleOptions sampleEnv =
    ([Action.launchBrowser false,
      Action.newContext (1024, 576) defaultVideoDir (1024, 576),
      Action.newPage, Action.gotoBlank, Action.exposeProgressFn,
      Action.exposeFinishFn, Action.setContent, Action.queryVideoPath,
      Action.closeContext,
      Action.moveVideo "__rrvideo__temp__/v.webm" "/cwd/rrvideo-output.webm",
      Action.removeFile "__rrvideo__temp__/v.webm",
      Action.removeDir defaultVideoDir,
      Action.sleep 300000],
     Outcome.returns "/cwd/rrvideo-output.webm") := by
  rw [transformToVideo_success "/cwd" sampleOptions sampleEnv sampleEvents
    (by simp [sampleOptions]) rfl (by simp [sampleEnv])]
  rw [sampleConfig_eq]
  dsimp only [sampleEnv, cleanFiles]
  rw [captureViewport_half]
  rw [show resolvePath "/cwd" "rrvideo-output.webm" = "/cwd/rrvideo-output.webm" by
    unfold resolvePath
    rw [show isAbsolute "rrvideo-output.webm" = false by decide]
    simp]
  simp

/-! ## Claims -/

/-- **C1.** The claim says that on an event stream with `Meta` viewports
`800×600` and `1024×768` and resolution ratio `0.5`, the content viewport is
derived from the `Meta` events and the capture viewport is `512×384`.  The
code instead ignores the events — the `getMaxViewport(events)` call is
commented out and the baseline is the literal `2048×1152` — so the rendering
surface and recorded video size are `1024×576`, not `512×384`; the dormant
metadata-derived computation (`getMaxViewport` followed by the ratio scaling)
would have produced exactly the claimed `512×384`. -/
theorem c1_hardcoded_viewport_ignores_meta :
    Action.newContext (1024, 576) defaultVideoDir (1024, 576)
        ∈ (transformToVideo "/cwd" sampleOptions sampleEnv).1
    ∧ Action.newContext (512, 384) defaultVideoDir (512, 384)
        ∉ (transformToVideo "/cwd" sampleOptions sampleEnv).1
    ∧ captureViewport ((getMaxViewport sampleEvents).width,
        (getMaxViewport sampleEvents).height) (1 / 2) = (512, 384) := by
  have hmv : getMaxViewport sampleEvents = ⟨1024, 768⟩ := by
    unfold getMaxViewport sampleEvents metaStep
    norm_num
  refine ⟨?_, ?_, ?_⟩
  · rw [sampleRun]; simp
  · rw [sampleRun]; simp
  · rw [hmv]
    unfold captureViewport jsRound MaxScaleValue
    norm_num

/-- **C2.** The claim says the browser is closed whenever the returned promise
resolves, with no fixed delay between finalizing the artifact and returning.
The code does the opposite: `browser.close()` is commented out (the run never
performs a `closeBrowser` action) and a fixed 300000 ms sleep is inserted
after the move completes and before the output path is returned. -/
theorem c2_browser_left_open_and_fixed_delay :
    Action.sleep 300000 ∈ (transformToVideo "/cwd" sampleOptions sampleEnv).1
    ∧ Action.closeBrowser ∉ (transformToVideo "/cwd" sampleOptions sampleEnv).1
    ∧ (transformToVideo "/cwd" sampleOptions sampleEnv).2
        = Outcome.returns "/cwd/rrvideo-output.webm" := by
  refine ⟨?_, ?_, ?_⟩ <;> rw [sampleRun] <;> simp

/-- An environment whose replay runtime never calls `onReplayFinish`. -/
def noFinishEnv : Env :=
  { parsed := some sampleEvents, finishCalls := 0,
    videoPath := "", moveSucceeds := true, tempDirEmptyAfterRemove := true }

/-- **C3 counterexample.** With the replay runtime never invoking the finish
bridge, the run does not fail with a `PlaybackTimeoutError` (nor any other
error): it suspends forever, and render-context teardown is never forced. -/
theorem c3_counterexample_no_timeout :
    (transformToVideo "/cwd" sampleOptions noFinishEnv).2 = Outcome.suspended
    ∧ (transformToVideo "/cwd" sampleOptions noFinishEnv).2
        ≠ Outcome.threw "PlaybackTimeoutError"
    ∧ Action.closeContext ∉ (transformToVideo "/cwd" sampleOptions noFinishEnv).1 := by
  rw [transformToVideo_suspends "/cwd" sampleOptions noFinishEnv sampleEvents
    (by simp [sampleOptions]) rfl rfl]
  refine ⟨rfl, by simp, by simp⟩

/-- **C3 (amended).** `RRvideoConfig` offers no timeout option at all: when
the replay runtime never invokes `onReplayFinish`, every run whose input
parses suspends indefinitely at the completion await — it neither returns nor
throws, the render context is never torn down, and no cleanup of the
temporary capture ever happens. -/
theorem c3_no_finish_suspends_forever (cwd : String) (options : RRvideoConfig)
    (env : Env) (evs : List EventWithTime) (h1 : options.input ≠ "")
    (h2 : env.parsed = some evs) (h3 : env.finishCalls = 0) :
    (transformToVideo cwd options env).2 = Outcome.suspended
    ∧ Action.closeContext ∉ (transformToVideo cwd options env).1
    ∧ Action.removeFile env.videoPath ∉ (transformToVideo cwd options env).1
    ∧ Action.removeDir defaultVideoDir ∉ (transformToVideo cwd options env).1 := by
  rw [transformToVideo_suspends cwd options env evs h1 h2 h3]
  refine ⟨rfl, by simp, by simp, by simp⟩

/-- Witness for C3 (amended) at the concrete no-finish run. -/
theorem c3_no_finish_suspends_forever_witness :
    (transformToVideo "/cwd" sampleOptions noFinishEnv).2 = Outcome.suspended
    ∧ Action.closeContext ∉ (transformToVideo "/cwd" sampleOptions noFinishEnv).1
    ∧ Action.removeFile noFinishEnv.videoPath
        ∉ (transformToVideo "/cwd" sampleOptions noFinishEnv).1
    ∧ Action.removeDir defaultVideoDir
        ∉ (transformToVideo "/cwd" sampleOptions noFinishEnv).1 :=
  c3_no_finish_suspends_forever "/cwd" sampleOptions noFinishEnv sampleEvents
    (by simp [sampleOptions]) rfl rfl

/-! ## Lemmas on `getMaxViewport` -/

/-- The declared widths of the `Meta` events of a stream, in order. -/
def metaWidths (l : List EventWithTime) : List ℤ :=
  (l.filter fun e => e.type = EventType.Meta).map fun e => e.data.width

/-- The declared heights of the `Meta` events of a stream, in order. -/
def metaHeights (l : List EventWithTime) : List ℤ :=
  (l.filter fun e => e.type = EventType.Meta).map fun e => e.data.height

lemma if_gt_eq_max (a w : ℤ) : (if w > a then w else a) = max a w := by
  rw [max_def]
  split <;> split <;> omega

/-- Two `forEach` steps of `getMaxViewport` commute. -/
lemma metaStep_right_comm (z : ℤ × ℤ) (x y : EventWithTime) :
    metaStep (metaStep z x) y = metaStep (metaStep z y) x := by
  unfold metaStep
  by_cases hx : x.type = EventType.Meta <;> by_cases hy : y.type = EventType.Meta <;>
    simp [hx, hy, Prod.ext_iff]
  constructor <;>
    rw [if_gt_eq_max, if_gt_eq_max, if_gt_eq_max, if_gt_eq_max, sup_right_comm]

/-- The `forEach` of `getMaxViewport` computes, in each component, the left
fold of `max` over the `Meta` dimensions from the given floor. -/
lemma foldl_metaStep_eq (l : List EventWithTime) (a b : ℤ) :
    l.foldl metaStep (a, b) =
      ((metaWidths l).foldl max a, (metaHeights l).foldl max b) := by
  induction l generalizing a b with
  | nil => simp [metaWidths, metaHeights]
  | cons e rest ih =>
    rw [List.foldl_cons]
    by_cases he : e.type = EventType.Meta
    · rw [show metaStep (a, b) e = (max a e.data.width, max b e.data.height) by
        unfold metaStep
        simp [he, if_gt_eq_max]]
      rw [ih]
      unfold metaWidths metaHeights
      rw [List.filter_cons_of_pos (by simp [he]), List.map_cons, List.map_cons]
      rfl
    · rw [show metaStep (a, b) e = (a, b) by unfold metaStep; simp [he]]
      rw [ih]
      unfold metaWidths metaHeights
      rw [List.filter_cons_of_neg (by simp [he])]

lemma le_foldl_max (ws : List ℤ) (a : ℤ) : a ≤ ws.foldl max a := by
  induction ws generalizing a with
  | nil => exact le_refl a
  | cons w rest ih => exact le_trans (le_max_left a w) (ih (max a w))

/-- **C4 counterexample.** A stream with one `Meta` event declaring `100×100`:
the pointwise maximum across exactly the `Meta` events would be `100×100`, but
`getMaxViewport` returns the floor `500×500` because the running maxima are
initialised at 500, not at the first `Meta` event. -/
theorem c4_counterexample_small_meta :
    getMaxViewport [⟨EventType.Meta, ⟨100, 100⟩, 0⟩] = ⟨500, 500⟩
    ∧ Viewport.mk 500 500 ≠ Viewport.mk 100 100 := by
  constructor
  · unfold getMaxViewport metaStep
    norm_num
  · decide

/-- **C4 (amended).** `getMaxViewport` returns, in each component, the maximum
of the fixed floor `500` and the dimensions declared by exactly the `Meta`
events (so it is the pointwise maximum across the `Meta` events whenever they
all reach the floor); it is invariant under permutation of the event
sequence; with no `Meta` events — in particular on the empty sequence — it
returns the floor `500×500`; and its result is never below `500` in either
component, hence never zero or negative. -/
theorem c4_max_viewport_amended :
    (∀ l₁ l₂ : List EventWithTime, l₁.Perm l₂ → getMaxViewport l₁ = getMaxViewport l₂)
    ∧ (∀ l : List EventWithTime,
        getMaxViewport l = ⟨(metaWidths l).foldl max 500, (metaHeights l).foldl max 500⟩)
    ∧ (∀ l : List EventWithTime, (∀ e ∈ l, e.type ≠ EventType.Meta) →
        getMaxViewport l = ⟨500, 500⟩)
    ∧ (∀ l : List EventWithTime,
        500 ≤ (getMaxViewport l).width ∧ 500 ≤ (getMaxViewport l).height) := by
  have hchar : ∀ l : List EventWithTime,
      getMaxViewport l = ⟨(metaWidths l).foldl max 500, (metaHeights l).foldl max 500⟩ := by
    intro l
    unfold getMaxViewport
    rw [foldl_metaStep_eq]
  refine ⟨?_, hchar, ?_, ?_⟩
  · intro l₁ l₂ hperm
    unfold getMaxViewport
    rw [hperm.foldl_eq' (fun x _ y _ z => metaStep_right_comm z x y) (500, 500)]
  · intro l hl
    rw [hchar l]
    have hw : metaWidths l = [] := by
      unfold metaWidths
      rw [List.filter_eq_nil_iff.mpr (fun e he => by simp [hl e he])]
      rfl
    have hh : metaHeights l = [] := by
      unfold metaHeights
      rw [List.filter_eq_nil_iff.mpr (fun e he => by simp [hl e he])]
      rfl
    rw [hw, hh]
    rfl
  · intro l
    rw [hchar l]
    exact ⟨le_foldl_max _ _, le_foldl_max _ _⟩

/-! ## C5: input validation -/

/-- An environment whose input file parses to the empty event sequence. -/
def emptyEventsEnv : Env :=
  { parsed := some [], finishCalls := 1,
    videoPath := "__rrvideo__temp__/v.webm",
    moveSucceeds := true, tempDirEmptyAfterRemove := true }

/-- **C5 counterexample.** An input file containing `[]` parses to a valid but
empty event sequence; the claim says such input raises an error strictly
before the rendering engine is launched, yet the run launches the browser and
completes normally, throwing nothing. -/
theorem c5_counterexample_empty_events_launches :
    Action.launchBrowser false ∈ (transformToVideo "/cwd" sampleOptions emptyEventsEnv).1
    ∧ (transformToVideo "/cwd" sampleOptions emptyEventsEnv).2
        = Outcome.returns "/cwd/rrvideo-output.webm" := by
  rw [transformToVideo_success "/cwd" sampleOptions emptyEventsEnv []
    (by simp [sampleOptions]) rfl (by simp [emptyEventsEnv])]
  rw [sampleConfig_eq]
  constructor
  · simp
  · rw [show resolvePath "/cwd" "rrvideo-output.webm" = "/cwd/rrvideo-output.webm" by
      unfold resolvePath
      rw [show isAbsolute "rrvideo-output.webm" = false by decide]
      simp]

/-- **C5 (amended).** Unparseable input throws before anything is allocated —
the run performs no action at all, in particular the rendering engine is
never launched.  But emptiness is not checked: any input that parses, the
empty sequence included, proceeds to launch the browser and never raises an
input-format error. -/
theorem c5_parse_failure_fails_fast (cwd : String) (options : RRvideoConfig)
    (env : Env) (h1 : options.input ≠ "") :
    (env.parsed = none →
      transformToVideo cwd options env = ([], Outcome.threw "SyntaxError: invalid events JSON"))
    ∧ (∀ evs : List EventWithTime, env.parsed = some evs →
        Action.launchBrowser (resolveConfig options).headless
            ∈ (transformToVideo cwd options env).1
        ∧ ∀ msg : String, (transformToVideo cwd options env).2 ≠ Outcome.threw msg) := by
  constructor
  · intro hp
    exact transformToVideo_parse_failure cwd options env h1 hp
  · intro evs hp
    by_cases h3 : env.finishCalls = 0
    · rw [transformToVideo_suspends cwd options env evs h1 hp h3]
      exact ⟨by simp, by simp⟩
    · rw [transformToVideo_success cwd options env evs h1 hp
        (Nat.one_le_iff_ne_zero.mpr h3)]
      exact ⟨by simp, by simp⟩

/-- Witness for C5 (amended): an unparseable-input run and an empty-events
run, both at concrete inputs. -/
theorem c5_parse_failure_fails_fast_witness :
    (emptyEventsEnv.parsed = none →
      transformToVideo "/cwd" sampleOptions emptyEventsEnv
        = ([], Outcome.threw "SyntaxError: invalid events JSON"))
    ∧ (∀ evs : List EventWithTime, emptyEventsEnv.parsed = some evs →
        Action.launchBrowser (resolveConfig sampleOptions).headless
            ∈ (transformToVideo "/cwd" sampleOptions emptyEventsEnv).1
        ∧ ∀ msg : String,
            (transformToVideo "/cwd" sampleOptions emptyEventsEnv).2 ≠ Outcome.threw msg) :=
  c5_parse_failure_fails_fast "/cwd" sampleOptions emptyEventsEnv (by simp [sampleOptions])

/-! ## C6: bridge registration precedes content injection -/

/-- Every occurrence of `setContent` in a trace is strictly preceded by an
occurrence of each of the two bridge registrations. -/
def contentAfterBridges (tr : List Action) : Prop :=
  ∀ i : ℕ, ∀ h : i < tr.length, tr.get ⟨i, h⟩ = Action.setContent →
    ∃ j k, ∃ hj : j < tr.length, ∃ hk : k < tr.length,
      j < i ∧ k < i ∧ tr.get ⟨j, hj⟩ = Action.exposeProgressFn
        ∧ tr.get ⟨k, hk⟩ = Action.exposeFinishFn

lemma contentAfterBridges_nil : contentAfterBridges [] := by
  intro i h hi
  simp at h

/-- Any trace that starts with the pipeline's seven-action prefix puts both
registrations (positions 4 and 5) before every `setContent` (position 6 and,
hypothetically, any later occurrence). -/
lemma contentAfterBridges_pre (hb : Bool) (vp : ℤ × ℤ) (post : List Action) :
    contentAfterBridges
      ([Action.launchBrowser hb, Action.newContext vp defaultVideoDir vp,
        Action.newPage, Action.gotoBlank, Action.exposeProgressFn,
        Action.exposeFinishFn, Action.setContent] ++ post) := by
  intro i h hi
  by_cases hlt : i < 6
  · exfalso
    interval_cases i <;> exact nomatch hi
  · push_neg at hlt
    exact ⟨4, 5, by omega, by omega, by omega, by omega, rfl, rfl⟩

/-- **C6.** In every run, both bridge functions — `onReplayProgressUpdate`
and `onReplayFinish` — are registered on the page strictly before the
document content embedding the event data is set: any `setContent` in the
trace is preceded by both registrations. -/
theorem c6_bridges_before_content (cwd : String) (options : RRvideoConfig) (env : Env) :
    contentAfterBridges (transformToVideo cwd options env).1 := by
  by_cases h1 : options.input = ""
  · rw [transformToVideo_no_input cwd options env h1]
    exact contentAfterBridges_nil
  · cases hp : env.parsed with
    | none =>
      rw [transformToVideo_parse_failure cwd options env h1 hp]
      exact contentAfterBridges_nil
    | some evs =>
      by_cases h3 : env.finishCalls = 0
      · rw [transformToVideo_suspends cwd options env evs h1 hp h3]
        have hpre := contentAfterBridges_pre (resolveConfig options).headless
          (captureViewport (2048, 1152) (resolveConfig options).resolutionRatio) []
        rw [List.append_nil] at hpre
        exact hpre
      · rw [transformToVideo_success cwd options env evs h1 hp
          (Nat.one_le_iff_ne_zero.mpr h3)]
        exact contentAfterBridges_pre _ _ _

/-! ## C7: idempotence of the finish signal -/

/-- `transformToVideo` reads `finishCalls` only through the resolved flag of
the completion signal. -/
lemma transformToVideo_finishCalls_congr (cwd : String) (options : RRvideoConfig)
    (env : Env) (n : ℕ)
    (h : (signalAfter env.finishCalls).resolved = (signalAfter n).resolved) :
    transformToVideo cwd options env
      = transformToVideo cwd options { env with finishCalls := n } := by
  unfold transformToVideo
  dsimp only
  rw [h]
  rfl

/-- **C7.** The completion signal resolves exactly once, on the first
`onReplayFinish` call: after any positive number of calls the promise is
settled and the awaiting continuation has been resumed exactly once; a call
on a settled signal is a no-op; and a run in which the replay runtime calls
`onReplayFinish` `n ≥ 1` times is indistinguishable — same actions, same
outcome — from the run in which it calls it exactly once. -/
theorem c7_finish_signal_idempotent :
    (∀ n : ℕ, 1 ≤ n → signalAfter n = ⟨true, 1⟩)
    ∧ (∀ s : CompletionSignal, s.resolved = true → onReplayFinish s = s)
    ∧ (∀ (cwd : String) (options : RRvideoConfig) (env : Env), 1 ≤ env.finishCalls →
        transformToVideo cwd options env
          = transformToVideo cwd options { env with finishCalls := 1 }) := by
  refine ⟨fun n hn => signalAfter_pos hn, fun s hs => onReplayFinish_of_resolved hs, ?_⟩
  intro cwd options env hn
  exact transformToVideo_finishCalls_congr cwd options env 1
    (by rw [signalAfter_pos hn, signalAfter_pos (le_refl 1)])

/-! ## C8: cleanup on move failure -/

/-- **C8.** When the move of the capture to the output path fails, the error
is reported (logged), and the `finally` cleanup still runs: the temporary
capture file is removed, and the temporary directory is removed when it is
left empty. -/
theorem c8_cleanup_survives_move_failure (cwd : String) (options : RRvideoConfig)
    (env : Env) (evs : List EventWithTime) (h1 : options.input ≠ "")
    (h2 : env.parsed = some evs) (h3 : 1 ≤ env.finishCalls)
    (h4 : env.moveSucceeds = false) :
    Action.logMoveError ∈ (transformToVideo cwd options env).1
    ∧ Action.removeFile env.videoPath ∈ (transformToVideo cwd options env).1
    ∧ (env.tempDirEmptyAfterRemove = true →
        Action.removeDir defaultVideoDir ∈ (transformToVideo cwd options env).1) := by
  rw [transformToVideo_success cwd options env evs h1 h2 h3]
  refine ⟨?_, ?_, fun h5 => ?_⟩
  · simp [h4]
  · simp [cleanFiles]
  · simp [cleanFiles, h5]

/-- An otherwise successful environment whose artifact move fails. -/
def moveFailEnv : Env :=
  { parsed := some sampleEvents, finishCalls := 1,
    videoPath := "__rrvideo__temp__/v.webm",
    moveSucceeds := false, tempDirEmptyAfterRemove := true }

/-- Witness for C8 at a concrete failing-move run. -/
theorem c8_cleanup_survives_move_failure_witness :
    Action.logMoveError ∈ (transformToVideo "/cwd" sampleOptions moveFailEnv).1
    ∧ Action.removeFile moveFailEnv.videoPath
        ∈ (transformToVideo "/cwd" sampleOptions moveFailEnv).1
    ∧ (moveFailEnv.tempDirEmptyAfterRemove = true →
        Action.removeDir defaultVideoDir
          ∈ (transformToVideo "/cwd" sampleOptions moveFailEnv).1) :=
  c8_cleanup_survives_move_failure "/cwd" sampleOptions moveFailEnv sampleEvents
    (by simp [sampleOptions]) rfl (by simp [moveFailEnv]) rfl

/-! ## C9: resolution-ratio clamping and capture-viewport positivity -/

/-- A caller config with the tiny resolution ratio `1/8192 ∈ (0, 1]`. -/
def tinyRatioOptions : RRvideoConfig :=
  { input := "/events.json", resolutionRatio := some (1 / 8192) }

lemma tinyRatioConfig_eq : resolveConfig tinyRatioOptions =
    { input := "/events.json", output := "rrvideo-output.webm", headless := false,
      resolutionRatio := 1 / 8192, rrwebPlayer := {} } := by
  unfold resolveConfig tinyRatioOptions
  norm_num

/-- **C9 counterexample.** The ratio `1/8192` lies in `(0, 1]` (and is exactly
representable in binary floating point), yet the computed capture viewport is
`0×0` — `Math.round(2048/8192) = Math.round(0.25) = 0` and
`Math.round(1152/8192) = 0` — and the run sizes its rendering surface and
recorded video to `0×0`, so the dimensions are not positive integers. -/
theorem c9_counterexample_tiny_ratio :
    ((0 : ℚ) < 1 / 8192 ∧ (1 : ℚ) / 8192 ≤ 1)
    ∧ captureViewport (2048, 1152) ((1 : ℚ) / 8192) = (0, 0)
    ∧ Action.newContext (0, 0) defaultVideoDir (0, 0)
        ∈ (transformToVideo "/cwd" tinyRatioOptions sampleEnv).1 := by
  have hcv : captureViewport (2048, 1152) ((1 : ℚ) / 8192) = (0, 0) := by
    unfold captureViewport jsRound MaxScaleValue
    norm_num
  refine ⟨⟨by norm_num, by norm_num⟩, hcv, ?_⟩
  rw [transformToVideo_success "/cwd" tinyRatioOptions sampleEnv sampleEvents
    (by simp [tinyRatioOptions]) rfl (by simp [sampleEnv])]
  rw [tinyRatioConfig_eq]
  dsimp only
  rw [hcv]
  simp

/-- **C9 (amended).** A resolution ratio above 1 is clamped to the maximum
allowed value 1 before use, never rejected with an error (this half of the
claim holds).  The capture viewport dimensions, however, are positive for
precisely the ratios `r ∈ [1/2304, 1]`: below that threshold the rounded
height (and, below `1/4096`, the width) collapses to 0. -/
theorem c9_ratio_clamped_and_viewport_positive :
    (∀ (options : RRvideoConfig) (r : ℚ), options.resolutionRatio = some r → 1 < r →
      (resolveConfig options).resolutionRatio = 1)
    ∧ (∀ r : ℚ, 1 / 2304 ≤ r → r ≤ 1 →
        0 < (captureViewport (2048, 1152) r).1 ∧ 0 < (captureViewport (2048, 1152) r).2) := by
  constructor
  · intro options r hr h1
    unfold resolveConfig
    rw [hr]
    simp only [Option.getD_some]
    rw [if_pos h1]
  · intro r hlo hhi
    unfold captureViewport jsRound MaxScaleValue
    constructor
    · show (0 : ℤ) < ⌊(2048 : ℚ) * r * 1 + 1 / 2⌋
      rw [show (0 : ℤ) < ⌊(2048 : ℚ) * r * 1 + 1 / 2⌋ ↔ (1 : ℤ) ≤ ⌊(2048 : ℚ) * r * 1 + 1 / 2⌋ by omega]
      rw [Int.le_floor]
      push_cast
      linarith
    · show (0 : ℤ) < ⌊(1152 : ℚ) * r * 1 + 1 / 2⌋
      rw [show (0 : ℤ) < ⌊(1152 : ℚ) * r * 1 + 1 / 2⌋ ↔ (1 : ℤ) ≤ ⌊(1152 : ℚ) * r * 1 + 1 / 2⌋ by omega]
      rw [Int.le_floor]
      push_cast
      linarith

/-! ## C10: the element-highlight tool -/

mutual

lemma getFlattenedDescendants_eq : ∀ t : DomNode,
    getFlattenedDescendants t = preorderForest t.children
  | .node i s cs => by
    unfold getFlattenedDescendants
    exact flattenChildren_eq cs

lemma flattenChildren_eq : ∀ cs : List DomNode,
    flattenChildren cs = preorderForest cs
  | [] => rfl
  | c :: rest => by
    rcases c with ⟨i, s, ccs⟩
    show (DomNode.node i s ccs :: getFlattenedDescendants (DomNode.node i s ccs))
        ++ flattenChildren rest
      = preorderForest (DomNode.node i s ccs :: rest)
    rw [getFlattenedDescendants_eq (DomNode.node i s ccs), flattenChildren_eq rest]
    rfl

end

/-- The highlighted-set invariant along a trace: at most one element is
highlighted at the start and before every action (hence at every point of
the run, the final state being checked by the base case). -/
def statesOk (hl : List ℕ) : List HAction → Prop
  | [] => hl.length ≤ 1
  | a :: tr => hl.length ≤ 1 ∧ statesOk (applyAction hl a) tr

lemma statesOk_head {hl : List ℕ} {tr : List HAction} (h : statesOk hl tr) :
    hl.length ≤ 1 := by
  cases tr with
  | nil => exact h
  | cons a tr => exact h.1

lemma statesOk_append {xs ys : List HAction} {hl : List ℕ} :
    statesOk hl (xs ++ ys) ↔ statesOk hl xs ∧ statesOk (xs.foldl applyAction hl) ys := by
  induction xs generalizing hl with
  | nil =>
    simp only [List.nil_append, List.foldl_nil]
    exact ⟨fun h => ⟨statesOk_head h, h⟩, fun h => h.2⟩
  | cons a xs ih =>
    simp only [List.cons_append, List.foldl_cons]
    constructor
    · intro h
      obtain ⟨h1, h2⟩ := h
      obtain ⟨h3, h4⟩ := ih.mp h2
      exact ⟨⟨h1, h3⟩, h4⟩
    · rintro ⟨⟨h1, h3⟩, h4⟩
      exact ⟨h1, ih.mpr ⟨h3, h4⟩⟩

/-- One loop iteration starts and ends with nothing highlighted. -/
lemma applyAll_processElement (i : ℕ) (d : DomNode) (fmt : String) :
    (processElement i d fmt).foldl applyAction [] = [] := by
  simp [processElement, applyAction]

lemma statesOk_processElement (i : ℕ) (d : DomNode) (fmt : String) :
    statesOk [] (processElement i d fmt) := by
  simp [processElement, statesOk, applyAction]

lemma statesOk_highlightLoop (ds : List DomNode) (i : ℕ) (fmt : String) :
    statesOk [] (highlightLoop i ds fmt) := by
  induction ds generalizing i with
  | nil => simp [highlightLoop, statesOk]
  | cons d rest ih =>
    rw [highlightLoop, statesOk_append, applyAll_processElement]
    exact ⟨statesOk_processElement i d fmt, ih (i + 1)⟩

lemma applyAll_highlightLoop (ds : List DomNode) (i : ℕ) (fmt : String) :
    (highlightLoop i ds fmt).foldl applyAction [] = [] := by
  induction ds generalizing i with
  | nil => rfl
  | cons d rest ih =>
    rw [highlightLoop, List.foldl_append, applyAll_processElement]
    exact ih (i + 1)

lemma highlightedSeq_append (xs ys : List HAction) :
    highlightedSeq (xs ++ ys) = highlightedSeq xs ++ highlightedSeq ys := by
  unfold highlightedSeq
  exact List.filterMap_append _ _ _

/-- The loop highlights exactly the given descendants, in order. -/
lemma highlightedSeq_highlightLoop (ds : List DomNode) (i : ℕ) (fmt : String) :
    highlightedSeq (highlightLoop i ds fmt) = ds.map DomNode.nodeId := by
  induction ds generalizing i with
  | nil => rfl
  | cons d rest ih =>
    rw [highlightLoop, highlightedSeq_append, ih (i + 1)]
    rfl

/-- Every screenshot of a trace is captured while exactly one element is
highlighted. -/
def shotsAttributed (hl : List ℕ) : List HAction → Prop
  | [] => True
  | HAction.screenshot _ :: tr => hl.length = 1 ∧ shotsAttributed hl tr
  | a :: tr => shotsAttributed (applyAction hl a) tr

lemma shotsAttributed_highlightLoop (ds : List DomNode) (i : ℕ) (fmt : String) :
    shotsAttributed [] (highlightLoop i ds fmt) := by
  induction ds generalizing i with
  | nil => trivial
  | cons d rest ih =>
    rw [highlightLoop]
    show shotsAttributed []
      (HAction.saveAndHighlight d.nodeId :: HAction.wait 200 ::
        HAction.screenshot ("element_" ++ toString (i + 1) ++ "." ++ fmt) ::
        HAction.restoreStyle d.nodeId :: highlightLoop (i + 1) rest fmt)
    refine ⟨rfl, ?_⟩
    show shotsAttributed ([d.nodeId].erase d.nodeId) (highlightLoop (i + 1) rest fmt)
    rw [List.erase_cons_head]
    exact ih (i + 1)

/-- **C10.** The tool visits exactly the container's descendants in
depth-first preorder (`getFlattenedDescendants` coincides with the preorder
traversal of the child forest, and the highlight loop highlights precisely
those elements in that order); after the initial full-page `original`
screenshot, at every point of the run at most one element carries the
injected border; every border is restored by the end of the run; and every
per-element screenshot of the loop is captured while exactly one element —
the one of its iteration — is highlighted. -/
theorem c10_preorder_single_highlight :
    (∀ t : DomNode, getFlattenedDescendants t = preorderDescendantsSpec t)
    ∧ (∀ (t : DomNode) (fmt : String),
        highlightedSeq (highlightElements t fmt)
          = (preorderDescendantsSpec t).map DomNode.nodeId)
    ∧ (∀ (t : DomNode) (fmt : String) (p : List HAction),
        p <+: highlightElements t fmt → (highlightedAfter p).length ≤ 1)
    ∧ (∀ (t : DomNode) (fmt : String), highlightedAfter (highlightElements t fmt) = [])
    ∧ (∀ (t : DomNode) (fmt : String),
        shotsAttributed [] (highlightLoop 0 (getFlattenedDescendants t) fmt)) := by
  have hflat : ∀ t : DomNode, getFlattenedDescendants t = preorderDescendantsSpec t := by
    intro t
    rcases t with ⟨i, s, cs⟩
    exact getFlattenedDescendants_eq (DomNode.node i s cs)
  have hstates : ∀ (t : DomNode) (fmt : String),
      statesOk [] (highlightElements t fmt) := by
    intro t fmt
    exact ⟨by simp, statesOk_highlightLoop (getFlattenedDescendants t) 0 fmt⟩
  refine ⟨hflat, ?_, ?_, ?_, ?_⟩
  · intro t fmt
    show highlightedSeq (HAction.screenshot ("original." ++ fmt) ::
      highlightLoop 0 (getFlattenedDescendants t) fmt) = _
    rw [show highlightedSeq (HAction.screenshot ("original." ++ fmt) ::
        highlightLoop 0 (getFlattenedDescendants t) fmt)
        = highlightedSeq (highlightLoop 0 (getFlattenedDescendants t) fmt) from rfl]
    rw [highlightedSeq_highlightLoop, hflat t]
  · intro t fmt p hp
    obtain ⟨rest, hrest⟩ := hp
    have h := hstates t fmt
    rw [← hrest] at h
    exact statesOk_head (statesOk_append.mp h).2
  · intro t fmt
    show (HAction.screenshot ("original." ++ fmt) ::
      highlightLoop 0 (getFlattenedDescendants t) fmt).foldl applyAction [] = []
    rw [List.foldl_cons]
    exact applyAll_highlightLoop (getFlattenedDescendants t) 0 fmt
  · intro t fmt
    exact shotsAttributed_highlightLoop (getFlattenedDescendants t) 0 fmt

end RRVideo

